import Mathlib

/-!
Verification development for the de-switcher TUI (src/main.rs).

The program lets a user pick a target desktop-environment profile and a
package manager and generates a shell script that switches to it.  This file
gives a shallow embedding of the core logic of src/main.rs — the static
catalog, the profile resolver, the selection state machine, the script
generator, the path validator and the path-entry text editor — and proves
properties of that embedding.

Rust standard-library string and path primitives used by the code
(starts_with, ends_with, to_uppercase, trim, replace, contains, split,
Path::parent, Path::file_name, byte-indexed insert and remove) are modelled
by structural Lean functions over the character/byte lists of the strings,
so that every definition is executable by kernel reduction.  Rust
to_uppercase and trim are full-Unicode; the model is ASCII, which coincides
with Rust on every string occurring in the program and in the theorems
below.
-/

namespace DeSwitcher

/-! ### Structural models of the Rust standard-library primitives -/

/-- Model of Rust str::starts_with (prefix test on the character list). -/
def strStartsWith (s pre : String) : Bool :=
  pre.data.isPrefixOf s.data

/-- Model of Rust str::ends_with (suffix test on the character list). -/
def strEndsWith (s suf : String) : Bool :=
  suf.data.isSuffixOf s.data

/-- Model of Rust str::to_uppercase, restricted to ASCII (the only inputs the
program and the theorems use are ASCII, where the two agree). -/
def strToUpper (s : String) : String :=
  ⟨s.data.map Char.toUpper⟩

/-- ASCII whitespace test, modelling the characters Rust str::trim strips on
the ASCII range. -/
def isWsp (c : Char) : Bool :=
  c = ' ' || c = '\t' || c = '\n' || c = '\r'

/-- Model of Rust str::trim: drop whitespace from both ends. -/
def strTrim (s : String) : String :=
  ⟨((s.data.dropWhile isWsp).reverse.dropWhile isWsp).reverse⟩

/-- Scanner for substring containment: true when needle occurs inside hay.
Models Rust str::contains with a string pattern. -/
def listContainsSub (hay needle : List Char) : Bool :=
  match hay with
  | [] => needle.isEmpty
  | _ :: t => needle.isPrefixOf hay || listContainsSub t needle

/-- Model of Rust str::contains with a string pattern. -/
def strContains (hay needle : String) : Bool :=
  listContainsSub hay.data needle.data

/-- Fuel-indexed left-to-right non-overlapping replacement on character
lists.  With fuel at least the length of hay this is exactly Rust
str::replace for a non-empty pattern (the program only replaces the
non-empty patterns "-Desktop" and "-Window-Manager"). -/
def replaceFrom (fuel : Nat) (hay pat repl : List Char) : List Char :=
  match fuel, hay with
  | 0, rest => rest
  | _, [] => []
  | fuel + 1, h :: t =>
    if !pat.isEmpty && pat.isPrefixOf (h :: t) then
      repl ++ replaceFrom fuel ((h :: t).drop pat.length) pat repl
    else
      h :: replaceFrom fuel t pat repl

/-- Model of Rust str::replace (all non-overlapping occurrences, scanning
left to right). -/
def strReplace (s pat repl : String) : String :=
  ⟨replaceFrom s.data.length s.data pat.data repl.data⟩

/-- Split a character list at every occurrence of a separator character.
Models Rust str::split with a single-character separator: the empty string
splits to one empty piece, a trailing separator yields a trailing empty
piece. -/
def splitChar (sep : Char) : List Char → List (List Char)
  | [] => [[]]
  | h :: t =>
    let r := splitChar sep t
    if h = sep then [] :: r
    else
      match r with
      | [] => [[h]]
      | a :: rest => (h :: a) :: rest

/-- UTF-8 encoding of a Unicode code point, as a list of byte values.
Models how Rust String stores characters. -/
def utf8Bytes (c : Nat) : List Nat :=
  if c < 0x80 then [c]
  else if c < 0x800 then [0xC0 + c / 0x40, 0x80 + c % 0x40]
  else if c < 0x10000 then
    [0xE0 + c / 0x1000, 0x80 + (c / 0x40) % 0x40, 0x80 + c % 0x40]
  else
    [0xF0 + c / 0x40000, 0x80 + (c / 0x1000) % 0x40,
     0x80 + (c / 0x40) % 0x40, 0x80 + c % 0x40]

/-- UTF-8 byte sequence of a string.  Its length models Rust String::len
(a byte count, not a character count). -/
def strBytes (s : String) : List Nat :=
  (s.data.map (fun ch => utf8Bytes ch.toNat)).flatten

/-! ### Static catalog (src/main.rs lines 25–46) -/

/-- Static table mapping DE profile names to display-manager names
(DE_DM_MAP, src/main.rs lines 25–35).  The order is the order of the
static fallback list of available profiles. -/
def DE_DM_MAP : List (String × String) :=
  [("KDE-Desktop", "sddm"),
   ("GNOME-Desktop", "gdm"),
   ("XFCE4-Desktop", "lightdm"),
   ("Cinnamon-Desktop", "lightdm"),
   ("MATE-Desktop", "lightdm"),
   ("Budgie-Desktop", "lightdm"),
   ("LXQT-Desktop", "sddm"),
   ("LXDE-Desktop", "lightdm"),
   ("i3-Window-Manager", "lightdm")]

/-- Install-group overrides (SPECIAL_INSTALL_MAP, src/main.rs lines 37–44).
The source uses a HashMap with exactly these two entries; lookup is modelled
as a function. -/
def SPECIAL_INSTALL_MAP (profile : String) : Option String :=
  if profile = "COSMIC-Desktop" then some "cosmic"
  else if profile = "i3-Window-Manager" then some "i3-gaps"
  else none

/-- Fixed list of supported package managers (PKG_MANAGER_LIST,
src/main.rs line 46). -/
def PKG_MANAGER_LIST : List String :=
  ["pacman", "yay", "paru"]

/-! ### Profile resolver (src/main.rs lines 48–59) -/

/-- Embedding of map_raw_de_to_profile (src/main.rs lines 48–59): uppercase
the raw name; "COSMIC" and "I3" map to fixed profiles; otherwise the first
catalog profile whose name starts with the uppercased raw name; otherwise
the sentinel "Unknown-Desktop". -/
def map_raw_de_to_profile (raw_de : String) : String :=
  if strToUpper raw_de = "COSMIC" then "COSMIC-Desktop"
  else if strToUpper raw_de = "I3" then "i3-Window-Manager"
  else
    match DE_DM_MAP.find? (fun pr => strStartsWith pr.1 (strToUpper raw_de)) with
    | some pr => pr.1
    | none => "Unknown-Desktop"

/-! ### Available-profiles query (src/main.rs lines 61–86) -/

/-- Outcome of invoking the external listing tool, the input of
get_available_des.  spawnError is the case where the process could not be
started at all (Command::output returned Err); ran carries the exit status
and the stdout lines. -/
inductive QueryResult where
  | spawnError : QueryResult
  | ran : Bool → List String → QueryResult

/-- Line filter of get_available_des (src/main.rs lines 72–78): keep lines
whose trimmed form ends in "-Desktop" or "-Window-Manager" or contains
"i3", and trim them. -/
def filter_des (lines : List String) : List String :=
  (lines.filter (fun line =>
    let l := strTrim line
    strEndsWith l "-Desktop" || strEndsWith l "-Window-Manager" || strContains l "i3")).map strTrim

/-- Embedding of get_available_des (src/main.rs lines 61–86).  A spawn
failure propagates as an error (the question-mark operator on
Command::output); a run with failure status, or a run whose filtered output
is empty, falls back to the catalog profile names in catalog order. -/
def get_available_des : QueryResult → Except Unit (List String)
  | .spawnError => .error ()
  | .ran false _ => .ok (DE_DM_MAP.map Prod.fst)
  | .ran true lines =>
    let available := filter_des lines
    if available.isEmpty then .ok (DE_DM_MAP.map Prod.fst) else .ok available

/-! ### Application state (src/main.rs lines 88–174) -/

/-- Two-step input flow tag (AppStep, src/main.rs lines 88–92). -/
inductive AppStep where
  | SelectDE : AppStep
  | InputPath : AppStep
  deriving DecidableEq

/-- Embedding of the App struct (src/main.rs lines 94–105).  The cursor
position is a byte index into the UTF-8 form of input_buffer, as in Rust. -/
structure App where
  current_de_raw : String
  current_de_profile : String
  available_des : List String
  selected_de_index : Nat
  selected_pkg_manager_index : Nat
  should_quit : Bool
  current_step : AppStep
  input_buffer : String
  input_cursor_position : Nat
  input_error : Option String

/-- Embedding of App::generate_initial_filename (src/main.rs lines
131–140).  Both profile names are stripped of "-Desktop" and
"-Window-Manager"; the guard then compares the already-stripped source name
against "Unknown-Desktop". -/
def App.generate_initial_filename (from_profile to_profile : String) : String :=
  let f := strReplace (strReplace from_profile "-Desktop" "") "-Window-Manager" ""
  let t := strReplace (strReplace to_profile "-Desktop" "") "-Window-Manager" ""
  if f = "Unknown-Desktop" then
    "de_switcher_from_Unknown_to_" ++ t ++ ".sh"
  else
    "de_switcher_" ++ strReplace f "-Desktop" "" ++ "_to_" ++ t ++ ".sh"

/-- Embedding of App::new (src/main.rs lines 108–129), as a function of the
already-resolved raw desktop name and the available-profiles list (the
environment read and the external query are the excluded collaborators).
Indexing available_des[0] is modelled with getD; the source panics on an
empty list, which get_available_des prevents. -/
def App.new (current_de_raw : String) (available_des : List String) : App :=
  let current_de_profile := map_raw_de_to_profile current_de_raw
  let initial_path :=
    "./" ++ App.generate_initial_filename current_de_profile (available_des.getD 0 "")
  { current_de_raw := current_de_raw
    current_de_profile := current_de_profile
    available_des := available_des
    selected_de_index := 0
    selected_pkg_manager_index := 0
    should_quit := false
    current_step := AppStep.SelectDE
    input_buffer := initial_path
    input_cursor_position := (strBytes initial_path).length
    input_error := none }

/-- Embedding of App::update_filename_on_de_change (src/main.rs lines
142–152).  Indexing is modelled with getD (the source panics out of
range). -/
def App.update_filename_on_de_change (a : App) : App :=
  let new_filename :=
    App.generate_initial_filename a.current_de_profile
      (a.available_des.getD a.selected_de_index "")
  if a.current_step = AppStep.SelectDE then
    { a with
      input_buffer := "./" ++ new_filename
      input_cursor_position := (strBytes ("./" ++ new_filename)).length }
  else a

/-- Embedding of App::next_de (src/main.rs lines 154–157). -/
def App.next_de (a : App) : App :=
  App.update_filename_on_de_change
    { a with selected_de_index := (a.selected_de_index + 1) % a.available_des.length }

/-- Embedding of App::previous_de (src/main.rs lines 159–166). -/
def App.previous_de (a : App) : App :=
  App.update_filename_on_de_change
    { a with selected_de_index :=
        if a.selected_de_index > 0 then a.selected_de_index - 1
        else a.available_des.length - 1 }

/-- Embedding of App::cycle_pkg_manager (src/main.rs lines 168–170). -/
def App.cycle_pkg_manager (a : App) : App :=
  { a with selected_pkg_manager_index :=
      (a.selected_pkg_manager_index + 1) % PKG_MANAGER_LIST.length }

/-! ### Script generator (src/main.rs lines 176–276)

The source builds the script with one format! call over a fixed template.
The embedding splits the template into named literal chunks concatenated in
template order, so that the position of each command inside the script text
is visible to the theorems; the concatenation of the chunks is exactly the
format! output. -/

/-- Placeholder filename embedded in the script header
(script_file_placeholder, src/main.rs line 181); main substitutes the real
filename for it after generation. -/
def script_file_placeholder : String := "de_switch_script.sh"

/-- Sudo prefix for the install command (sudo_cmd, src/main.rs line 182):
present exactly for the base package manager. -/
def sudo_cmd_of (pm : String) : String :=
  if pm = "pacman" then "sudo" else ""

/-- Separator after the install sudo prefix (sudo_space, src/main.rs
line 190). -/
def sudo_space_of (pm : String) : String :=
  if (sudo_cmd_of pm).isEmpty then "" else " "

/-- Sudo prefix for the removal command (sudo_remove_cmd, src/main.rs
line 183). -/
def sudo_remove_cmd_of (pm : String) : String :=
  if pm = "pacman" then "sudo" else ""

/-- Separator after the removal sudo prefix (sudo_remove_cmd_with_space,
src/main.rs line 197). -/
def sudo_remove_space_of (pm : String) : String :=
  if (sudo_remove_cmd_of pm).isEmpty then "" else " "

/-- Display manager of the target profile (src/main.rs lines 185–188):
catalog lookup with default "lightdm". -/
def target_dm_of (target : String) : String :=
  ((DE_DM_MAP.find? (fun pr => pr.1 = target)).map Prod.snd).getD "lightdm"

/-- Package-manager invocation line of the install step (the second line of
special_install_cmd, src/main.rs lines 191–195). -/
def install_cmd_line_of (target pm : String) : String :=
  match SPECIAL_INSTALL_MAP target with
  | some g =>
    sudo_cmd_of pm ++ sudo_space_of pm ++ pm ++ " -S " ++ g
  | none =>
    sudo_cmd_of pm ++ sudo_space_of pm ++ pm
      ++ " -S $(eos-packagelist --install \"" ++ target ++ "\")"

/-- Install step text (special_install_cmd, src/main.rs lines 191–195):
echo line plus package-manager invocation, for the override and generic
cases. -/
def special_install_cmd_of (target pm : String) : String :=
  match SPECIAL_INSTALL_MAP target with
  | some g =>
    "echo \"Installing special package group: " ++ g ++ "\"\n"
      ++ install_cmd_line_of target pm ++ "\n"
  | none =>
    "echo \"Installing packages for " ++ target
      ++ " using eos-packagelist...\"\n" ++ install_cmd_line_of target pm ++ "\n"

/-- Package-manager invocation line of the removal step (src/main.rs
line 225 of the template). -/
def removal_cmd_of (pm : String) : String :=
  sudo_remove_cmd_of pm ++ sudo_remove_space_of pm ++ pm
    ++ " -Rcs - < /tmp/old_de_packages.txt"

/-- Template text from the start of the script through the line that
precedes the package-list enumeration command (src/main.rs lines 200–220),
with the current profile, target profile and package manager spliced in. -/
def script_head (current target pm : String) : String :=
  "#!/bin/bash\n# ----------------------------------------------------\n# Generated by Rust DE Switcher TUI\n# Target DE: "
    ++ target
    ++ "\n# Package Manager: "
    ++ pm
    ++ "\n#\n# REVIEW THIS SCRIPT BEFORE RUNNING:\n# bash "
    ++ script_file_placeholder
    ++ "\n# ----------------------------------------------------\necho \"Preparing to switch from "
    ++ current
    ++ " to "
    ++ target
    ++ " using "
    ++ pm
    ++ "...\"\n\n# 1. REMOVE CURRENT DE PACKAGES\n# This assumes the current DE profile is one of the recognized eos-packagelist profiles.\n# CAUTION: This operation removes package dependencies recursively.\n\nCURRENT_DE_PROFILE=\""
    ++ current
    ++ "\"\n\nif [ -n \"$CURRENT_DE_PROFILE\" ] && [ \"$CURRENT_DE_PROFILE\" != \"Unknown-Desktop\" ] && [ \"$CURRENT_DE_PROFILE\" != \""
    ++ target
    ++ "\" ]; then\n    echo \"Creating package list for removal: $CURRENT_DE_PROFILE...\"\n\n    # eos-packagelist runs as user\n    "

/-- Package-list enumeration command of the active removal branch
(src/main.rs template line 221). -/
def enum_line : String :=
  "eos-packagelist \"$CURRENT_DE_PROFILE\" > /tmp/old_de_packages.txt"

/-- Template text between the enumeration command and the removal command
(src/main.rs template lines 222–225; line 222 is a line of four spaces). -/
def script_mid1 : String :=
  "\n    \n    echo \"Removing old DE packages (may prompt for password)...\"\n    # -Rcs: Remove, cascade, remove dependencies only required by package(s) being removed\n    "

/-- Template text between the removal command and the skip-comment branch
(src/main.rs template lines 226–229). -/
def script_mid2 : String :=
  "\n    rm /tmp/old_de_packages.txt\n\nelse\n    "

/-- Skip-comment branch of the removal section (src/main.rs template
line 229). -/
def skip_line : String :=
  "echo \"Skipping old DE removal (Current DE profile: $CURRENT_DE_PROFILE is Unknown or matches target).\""

/-- Template text between the skip-comment branch and the install step
(src/main.rs template lines 230–233). -/
def script_mid3 : String :=
  "\nfi\n\n# 2. INSTALL NEW DE PACKAGES\n"

/-- Template text from the end of the install step to the end of the script
(src/main.rs template lines 234–259), with the display manager of the
target spliced in twice. -/
def script_tail (target : String) : String :=
  "\n\n# 3. ENABLE THE APPROPRIATE DISPLAY MANAGER\necho \"Enabling Display Manager: "
    ++ target_dm_of target
    ++ "\"\n\n# Disable any currently enabled display-manager service\nsudo systemctl disable --force $(systemctl list-units --type=service --state=enabled --no-pager | grep \"display-manager\" | awk \x27\x7bprint $1\x7d\x27) 2>/dev/null\n\n# Enable the new display manager\nsudo systemctl enable "
    ++ target_dm_of target
    ++ "\n\n# 4. Final message and reboot\necho \"\"\necho \"!!! Installation and configuration complete. !!!\"\necho \"!!! You MUST reboot now to finish the switch. !!!\"\n\n# Prompt for reboot\nread -r -p \"Do you want to reboot now? [y/N]: \" response\ncase \"$response\" in\n    [yY][eE][sS]|[yY]) \n        sudo reboot\n        ;;\n    *)\n        echo \"Please reboot manually to complete the switch.\"\n        ;;\nesac\n"

/-- Embedding of App::generate_script (src/main.rs lines 176–276) as a pure
function of the current profile, the target profile and the package
manager.  The concatenation of the chunks reproduces the format! template
byte for byte. -/
def generate_script (current target pm : String) : String :=
  script_head current target pm
    ++ enum_line
    ++ script_mid1
    ++ removal_cmd_of pm
    ++ script_mid2
    ++ skip_line
    ++ script_mid3
    ++ special_install_cmd_of target pm
    ++ script_tail target

/-- Evaluation of the shell conditional the generator emits at template
line 217 of src/main.rs, with the embedded current profile substituted for
CURRENT_DE_PROFILE: the active removal branch runs exactly when the current
profile is non-empty, differs from the sentinel and differs from the
target. -/
def removal_guard (current target : String) : Bool :=
  (current != "") && (current != "Unknown-Desktop") && (current != target)

/-! ### Path validator (src/main.rs lines 278–301)

The validator inspects the filesystem only through Path::is_dir and
Path::exists; the filesystem is modelled as an oracle passed explicitly.
Path::parent and Path::file_name are modelled on Unix path components as
documented for the Rust standard library: empty segments and non-leading
"." segments are dropped, a leading "." without a root is the current-dir
component, ".." segments are kept; file_name is the last component unless
it is "." or ".."; parent drops the last component and is none for the
empty path and for the bare root.  The parent string is rebuilt from the
remaining components (Rust returns a slice of the original; the two agree
up to separator normalization, which only affects which key is presented
to the filesystem oracle). -/

/-- Filesystem oracle: directory test and existence test by path string,
modelling Path::is_dir and Path::exists. -/
structure FSState where
  isDir : String → Bool
  pathExists : String → Bool

/-- Root test of a Unix path. -/
def pathHasRoot (p : String) : Bool :=
  strStartsWith p "/"

/-- Normal and parent-dir components of a Unix path, in order, modelling
the component iterator of the Rust standard library (root excluded, since
it is tracked by pathHasRoot). -/
def pathComps (p : String) : List String :=
  let toks := ((splitChar '/' p.data).map (fun l => (⟨l⟩ : String))).filter (fun t => t ≠ "")
  match toks with
  | [] => []
  | t0 :: rest =>
    if t0 = "." then
      (if pathHasRoot p then [] else ["."]) ++ rest.filter (fun t => t ≠ ".")
    else t0 :: rest.filter (fun t => t ≠ ".")

/-- Model of Path::parent on the path string: none for the empty path and
the bare root, otherwise the path without its final component. -/
def parentOf (p : String) : Option String :=
  match pathComps p with
  | [] => none
  | comps =>
    some ((if pathHasRoot p then "/" else "") ++ String.intercalate "/" comps.dropLast)

/-- Model of Path::file_name on the path string: the final component when
it is a normal one. -/
def fileNameOf (p : String) : Option String :=
  match (pathComps p).getLast? with
  | none => none
  | some s => if s = ".." || s = "." then none else some s

/-- Validation errors of App::validate_and_finalize_path, in source order
(src/main.rs lines 281–296). -/
inductive PathError where
  | IsDirectory : PathError
  | ParentMissing : PathError
  | EmptyFilename : PathError
  deriving DecidableEq

/-- Embedding of App::validate_and_finalize_path (src/main.rs lines
278–301) on the input buffer, with the filesystem oracle explicit.  The
source records the error message in input_error and returns false; the
embedding returns the error tag.  On success the source sets should_quit
and leaves the buffer unchanged; the embedding returns the path unchanged.
The function performs no write: it only reads the two oracle predicates. -/
def validate_and_finalize_path (fs : FSState) (p : String) : Except PathError String :=
  if fs.isDir p then Except.error PathError.IsDirectory
  else
    let parent := (parentOf p).getD ""
    if parent != "" && !(fs.pathExists parent) then Except.error PathError.ParentMissing
    else
      match fileNameOf p with
      | none => Except.error PathError.EmptyFilename
      | some fn =>
        if fn.isEmpty then Except.error PathError.EmptyFilename
        else Except.ok p

/-! ### Path-entry text editor (src/main.rs lines 435–460)

The input buffer is a Rust String and the cursor a byte index, so the
editor is modelled on the UTF-8 byte list of the buffer.  String::insert
and String::remove panic when the index is not a character boundary; a
panic is modelled as none. -/

/-- Continuation-byte test of UTF-8. -/
def isContinuation (b : Nat) : Bool :=
  decide (0x80 ≤ b) && decide (b < 0xC0)

/-- Model of Rust str::is_char_boundary on a byte list. -/
def isCharBoundary (buf : List Nat) (i : Nat) : Bool :=
  if i = 0 then true
  else if buf.length < i then false
  else if i = buf.length then true
  else !isContinuation (buf.getD i 0)

/-- Byte length of the UTF-8 character starting at index i, read from its
lead byte (meaningful when i is a character boundary inside the buffer). -/
def charLenAt (buf : List Nat) (i : Nat) : Nat :=
  let b := buf.getD i 0
  if b < 0x80 then 1 else if b < 0xE0 then 2 else if b < 0xF0 then 3 else 4

/-- Editor state: the UTF-8 bytes of input_buffer and the byte cursor
input_cursor_position. -/
structure EditState where
  buf : List Nat
  cursor : Nat
  deriving DecidableEq

/-- Path-entry edit operations of the InputPath key handler (src/main.rs
lines 436–460). -/
inductive EditOp where
  | insChar : Nat → EditOp
  | backspace : EditOp
  | del : EditOp
  | left : EditOp
  | right : EditOp
  deriving DecidableEq

/-- Embedding of the InputPath key handler (src/main.rs lines 436–460).
Char inserts the UTF-8 bytes of the character at the cursor and advances
the cursor by one (one, not by the encoded length — the source does
input_cursor_position += 1).  Backspace decrements the cursor then removes
the character starting there; Delete removes the character at the cursor;
Left and Right move the cursor by one byte with no boundary adjustment.
A none result models a Rust panic inside String::insert or
String::remove. -/
def applyEdit : EditOp → EditState → Option EditState
  | EditOp.insChar c, s =>
    if isCharBoundary s.buf s.cursor then
      some ⟨s.buf.take s.cursor ++ utf8Bytes c ++ s.buf.drop s.cursor, s.cursor + 1⟩
    else none
  | EditOp.backspace, s =>
    if s.cursor > 0 then
      let i := s.cursor - 1
      if isCharBoundary s.buf i && decide (i < s.buf.length) then
        some ⟨s.buf.take i ++ s.buf.drop (i + charLenAt s.buf i), i⟩
      else none
    else some s
  | EditOp.del, s =>
    if s.cursor < s.buf.length then
      if isCharBoundary s.buf s.cursor then
        some ⟨s.buf.take s.cursor ++ s.buf.drop (s.cursor + charLenAt s.buf s.cursor), s.cursor⟩
      else none
    else some s
  | EditOp.left, s =>
    if s.cursor > 0 then some ⟨s.buf, s.cursor - 1⟩ else some s
  | EditOp.right, s =>
    if s.cursor < s.buf.length then some ⟨s.buf, s.cursor + 1⟩ else some s

/-- Editor state at entry of the path-entry step: the initial buffer of
App::new with the cursor at its byte length (src/main.rs lines 115,
125–126). -/
def initial_edit_state (current_de_raw : String) (available : List String) : EditState :=
  let a := App.new current_de_raw available
  ⟨strBytes a.input_buffer, a.input_cursor_position⟩

/-- Occurrence of needle as a contiguous substring of hay. -/
def Substr (needle hay : String) : Prop :=
  ∃ a b : String, hay = a ++ needle ++ b

/-! ### Helper lemmas -/

theorem Substr.self (s : String) : Substr s s :=
  ⟨"", "", by apply String.ext; simp [String.data_append]⟩

theorem Substr.appLeft {n s : String} (t : String) (h : Substr n s) : Substr n (t ++ s) := by
  obtain ⟨a, b, rfl⟩ := h
  exact ⟨t ++ a, b, by simp [String.append_assoc]⟩

theorem Substr.appRight {n s : String} (t : String) (h : Substr n s) : Substr n (s ++ t) := by
  obtain ⟨a, b, rfl⟩ := h
  exact ⟨a, b ++ t, by simp [String.append_assoc]⟩

theorem substr_enum_script (c t pm : String) :
    Substr enum_line (generate_script c t pm) := by
  unfold generate_script
  exact ((((((((Substr.self _).appLeft _).appRight _).appRight _).appRight _).appRight
    _).appRight _).appRight _).appRight _

theorem substr_removal_script (c t pm : String) :
    Substr (removal_cmd_of pm) (generate_script c t pm) := by
  unfold generate_script
  exact ((((((Substr.self _).appLeft _).appRight _).appRight _).appRight _).appRight
    _).appRight _

theorem substr_skip_script (c t pm : String) :
    Substr skip_line (generate_script c t pm) := by
  unfold generate_script
  exact ((((Substr.self _).appLeft _).appRight _).appRight _).appRight _

theorem substr_install_in_special (t pm : String) :
    Substr (install_cmd_line_of t pm) (special_install_cmd_of t pm) := by
  rcases h : SPECIAL_INSTALL_MAP t with _ | g <;>
    simp only [special_install_cmd_of, h] <;>
    exact ((Substr.self _).appLeft _).appRight _

theorem substr_install_script (c t pm : String) :
    Substr (install_cmd_line_of t pm) (generate_script c t pm) := by
  unfold generate_script
  exact ((substr_install_in_special t pm).appLeft _).appRight _

/-! ### Claim theorems -/

/-- C1 (amended): for every current profile, target profile and package
manager, when the current profile equals the target or is the sentinel, the
shell conditional guarding the removal section evaluates to false — so at
script runtime only the skip-comment branch executes — while the script
text itself always contains both the skip-comment branch and the active
removal commands (the enumeration to a temporary file and the
package-manager removal invocation), which are guarded, not omitted. -/
theorem c1_removal_guard_skip (current target pm : String)
    (h : current = target ∨ current = "Unknown-Desktop") :
    removal_guard current target = false
    ∧ Substr skip_line (generate_script current target pm)
    ∧ Substr enum_line (generate_script current target pm)
    ∧ Substr (removal_cmd_of pm) (generate_script current target pm) := by
  refine ⟨?_, substr_skip_script current target pm, substr_enum_script current target pm,
    substr_removal_script current target pm⟩
  unfold removal_guard
  rcases h with rfl | rfl <;> simp

/-- C1 witness: the theorem instantiated at the sentinel current profile,
target KDE-Desktop and package manager yay. -/
theorem c1_witness :
    (("Unknown-Desktop" : String) = "KDE-Desktop"
      ∨ ("Unknown-Desktop" : String) = "Unknown-Desktop")
    ∧ (removal_guard "Unknown-Desktop" "KDE-Desktop" = false
        ∧ Substr skip_line (generate_script "Unknown-Desktop" "KDE-Desktop" "yay")
        ∧ Substr enum_line (generate_script "Unknown-Desktop" "KDE-Desktop" "yay")
        ∧ Substr (removal_cmd_of "yay") (generate_script "Unknown-Desktop" "KDE-Desktop" "yay")) :=
  ⟨Or.inr rfl, c1_removal_guard_skip "Unknown-Desktop" "KDE-Desktop" "yay" (Or.inr rfl)⟩

/-- C1 counterexample: with current profile equal to the target profile,
the generated script text still contains the active removal commands (the
eos-packagelist enumeration and the pacman removal invocation), refuting
the claim that the text contains only the skip-comment branch. -/
theorem c1_counterexample :
    Substr enum_line (generate_script "KDE-Desktop" "KDE-Desktop" "pacman")
    ∧ Substr (removal_cmd_of "pacman")
        (generate_script "KDE-Desktop" "KDE-Desktop" "pacman") :=
  ⟨substr_enum_script "KDE-Desktop" "KDE-Desktop" "pacman",
   substr_removal_script "KDE-Desktop" "KDE-Desktop" "pacman"⟩

/-- C2 (amended): resolving the absent-environment substitute "Unknown"
yields the sentinel, but resolving the empty string yields the first
catalog profile "KDE-Desktop", because every profile name starts with the
empty prefix. -/
theorem c2_resolve_empty_and_unknown :
    map_raw_de_to_profile "Unknown" = "Unknown-Desktop"
    ∧ map_raw_de_to_profile "" = "KDE-Desktop" := by
  constructor <;> rfl

/-- C2 counterexample: resolve applied to the empty string yields
"KDE-Desktop", not the sentinel "Unknown-Desktop" as the claim states. -/
theorem c2_counterexample :
    map_raw_de_to_profile "" = "KDE-Desktop"
    ∧ ("KDE-Desktop" : String) ≠ "Unknown-Desktop" :=
  ⟨rfl, by decide⟩

/-- C3: evaluation at the failing input.  For the sentinel source profile
the code produces "de_switcher_Unknown_to_KDE.sh" — the
"de_switcher_from_Unknown_to_" branch is dead because its guard compares
the already-stripped name "Unknown" against "Unknown-Desktop" — while the
known-profile convention of the claim does hold. -/
theorem c3_generate_initial_filename_eval :
    App.generate_initial_filename "Unknown-Desktop" "KDE-Desktop"
      = "de_switcher_Unknown_to_KDE.sh"
    ∧ App.generate_initial_filename "KDE-Desktop" "GNOME-Desktop"
      = "de_switcher_KDE_to_GNOME.sh" := by
  constructor <;> rfl

/-- C4 (amended): when the listing tool runs but exits unsuccessfully, or
runs successfully with an output whose filtered form is empty, the query
recovers with the static catalog profile names in catalog order; but when
the tool cannot be spawned at all the error propagates out of
get_available_des (and App::new and main surface it fatally). -/
theorem c4_static_fallback (success : Bool) (lines : List String)
    (h : success = false ∨ filter_des lines = []) :
    get_available_des (QueryResult.ran success lines)
      = Except.ok (DE_DM_MAP.map Prod.fst) := by
  cases success
  · rfl
  · rcases h with h | h
    · exact absurd h (by decide)
    · unfold get_available_des
      simp [h]

/-- C4 witness: the theorem instantiated at a failed run with empty
output. -/
theorem c4_witness :
    (false = false ∨ filter_des ([] : List String) = [])
    ∧ get_available_des (QueryResult.ran false [])
        = Except.ok (DE_DM_MAP.map Prod.fst) :=
  ⟨Or.inl rfl, c4_static_fallback false [] (Or.inl rfl)⟩

/-- C4 counterexample: a spawn failure of the listing tool is a failing
query that is not recovered by the fallback — get_available_des propagates
it as an error, which App::new and main surface as a fatal program
error. -/
theorem c4_counterexample :
    get_available_des QueryResult.spawnError = Except.error () := rfl

/-- C5 (amended): every raw desktop identifier resolves to a catalog
profile name, to the fixed special profile "COSMIC-Desktop" (which has no
catalog entry), or to the sentinel "Unknown-Desktop". -/
theorem c5_resolve_range (r : String) :
    map_raw_de_to_profile r = "COSMIC-Desktop"
    ∨ map_raw_de_to_profile r ∈ DE_DM_MAP.map Prod.fst
    ∨ map_raw_de_to_profile r = "Unknown-Desktop" := by
  unfold map_raw_de_to_profile
  by_cases h1 : strToUpper r = "COSMIC"
  · rw [if_pos h1]
    left
    rfl
  · by_cases h2 : strToUpper r = "I3"
    · rw [if_neg h1, if_pos h2]
      right; left
      decide
    · rw [if_neg h1, if_neg h2]
      rcases h3 : DE_DM_MAP.find? (fun pr => strStartsWith pr.1 (strToUpper r)) with _ | pr
      · simp only [h3]
        right; right; trivial
      · simp only [h3]
        right; left
        exact List.mem_map_of_mem Prod.fst (List.mem_of_find?_eq_some h3)

/-- C5 counterexample: resolving "COSMIC" yields "COSMIC-Desktop", which is
neither one of the catalog profile names (the profiles paired with a
display manager) nor the sentinel. -/
theorem c5_counterexample :
    map_raw_de_to_profile "COSMIC" = "COSMIC-Desktop"
    ∧ "COSMIC-Desktop" ∉ DE_DM_MAP.map Prod.fst
    ∧ ("COSMIC-Desktop" : String) ≠ "Unknown-Desktop" :=
  ⟨rfl, by decide, by decide⟩

/-- C7: cycling the package manager exactly three times from any in-range
starting index returns the index to its starting value (the list of
package managers has exactly three entries). -/
theorem c7_pkg_manager_cycle (a : App) (h : a.selected_pkg_manager_index < 3) :
    (((a.cycle_pkg_manager).cycle_pkg_manager).cycle_pkg_manager).selected_pkg_manager_index
      = a.selected_pkg_manager_index := by
  unfold App.cycle_pkg_manager
  show (((a.selected_pkg_manager_index + 1) % PKG_MANAGER_LIST.length + 1)
      % PKG_MANAGER_LIST.length + 1) % PKG_MANAGER_LIST.length
    = a.selected_pkg_manager_index
  have hl : PKG_MANAGER_LIST.length = 3 := rfl
  rw [hl]
  omega

/-- C7 witness: the theorem instantiated at the initial application state,
whose package-manager index is 0. -/
theorem c7_witness :
    (App.new "KDE" ["KDE-Desktop"]).selected_pkg_manager_index < 3
    ∧ ((((App.new "KDE" ["KDE-Desktop"]).cycle_pkg_manager).cycle_pkg_manager).cycle_pkg_manager).selected_pkg_manager_index
        = (App.new "KDE" ["KDE-Desktop"]).selected_pkg_manager_index :=
  ⟨by decide, c7_pkg_manager_cycle _ (by decide)⟩

theorem update_filename_selected_index (a : App) :
    (App.update_filename_on_de_change a).selected_de_index = a.selected_de_index := by
  unfold App.update_filename_on_de_change
  split <;> rfl

theorem update_filename_available (a : App) :
    (App.update_filename_on_de_change a).available_des = a.available_des := by
  unfold App.update_filename_on_de_change
  split <;> rfl

theorem next_de_index (a : App) :
    (a.next_de).selected_de_index
      = (a.selected_de_index + 1) % a.available_des.length := by
  unfold App.next_de
  rw [update_filename_selected_index]

theorem next_de_available (a : App) :
    (a.next_de).available_des = a.available_des := by
  unfold App.next_de
  rw [update_filename_available]

theorem previous_de_index (a : App) :
    (a.previous_de).selected_de_index
      = if a.selected_de_index > 0 then a.selected_de_index - 1
        else a.available_des.length - 1 := by
  unfold App.previous_de
  rw [update_filename_selected_index]

theorem previous_de_available (a : App) :
    (a.previous_de).available_des = a.available_des := by
  unfold App.previous_de
  rw [update_filename_available]

/-- C6: for every application state with a non-empty available-profiles
list and an in-range target index, advancing then retreating the target,
and retreating then advancing it, both restore the original target
index. -/
theorem c6_target_cycle (a : App) (hne : a.available_des ≠ [])
    (hidx : a.selected_de_index < a.available_des.length) :
    ((a.next_de).previous_de).selected_de_index = a.selected_de_index
    ∧ ((a.previous_de).next_de).selected_de_index = a.selected_de_index := by
  have hn : 0 < a.available_des.length := List.length_pos.mpr hne
  constructor
  · rw [previous_de_index, next_de_available, next_de_index]
    by_cases he : a.selected_de_index + 1 = a.available_des.length
    · have h0 : (a.selected_de_index + 1) % a.available_des.length = 0 := by
        rw [he]; exact Nat.mod_self _
      rw [h0]
      simp
      omega
    · have h1 : (a.selected_de_index + 1) % a.available_des.length
          = a.selected_de_index + 1 := Nat.mod_eq_of_lt (by omega)
      rw [h1]
      simp
  · rw [next_de_index, previous_de_available, previous_de_index]
    by_cases hi : a.selected_de_index > 0
    · rw [if_pos hi]
      have h2 : a.selected_de_index - 1 + 1 = a.selected_de_index := by omega
      rw [h2, Nat.mod_eq_of_lt hidx]
    · rw [if_neg hi]
      have h3 : a.available_des.length - 1 + 1 = a.available_des.length := by omega
      rw [h3, Nat.mod_self]
      omega

/-- C6 witness: the theorem instantiated at the initial state over two
available profiles, whose target index is 0. -/
theorem c6_witness :
    (App.new "KDE" ["KDE-Desktop", "GNOME-Desktop"]).available_des ≠ []
    ∧ (App.new "KDE" ["KDE-Desktop", "GNOME-Desktop"]).selected_de_index
        < (App.new "KDE" ["KDE-Desktop", "GNOME-Desktop"]).available_des.length
    ∧ ((((App.new "KDE" ["KDE-Desktop", "GNOME-Desktop"]).next_de).previous_de).selected_de_index
          = (App.new "KDE" ["KDE-Desktop", "GNOME-Desktop"]).selected_de_index
        ∧ ((((App.new "KDE" ["KDE-Desktop", "GNOME-Desktop"]).previous_de).next_de).selected_de_index
          = (App.new "KDE" ["KDE-Desktop", "GNOME-Desktop"]).selected_de_index)) :=
  ⟨by decide, by decide, c6_target_cycle _ (by decide) (by decide)⟩

theorem isPrefixOf_append_of_le (p s t : List Char) (h : p.length ≤ s.length) :
    p.isPrefixOf (s ++ t) = p.isPrefixOf s := by
  induction p generalizing s with
  | nil => simp [List.isPrefixOf]
  | cons c cs ih =>
    cases s with
    | nil => simp at h
    | cons d ds =>
      simp only [List.cons_append, List.isPrefixOf, List.append_eq]
      rw [ih ds (by simpa using h)]

theorem strLength_append (a b : String) : (a ++ b).length = a.length + b.length := by
  show (a ++ b).data.length = a.data.length + b.data.length
  rw [String.data_append, List.length_append]

theorem strStartsWith_append_stable (s t p : String) (h : p.length ≤ s.length) :
    strStartsWith (s ++ t) p = strStartsWith s p := by
  unfold strStartsWith
  rw [String.data_append]
  exact isPrefixOf_append_of_le p.data s.data t.data h

theorem strStartsWith_append2_stable (s t1 t2 p : String) (h : p.length ≤ s.length) :
    strStartsWith (s ++ t1 ++ t2) p = strStartsWith s p := by
  rw [strStartsWith_append_stable (s ++ t1) t2 p (by rw [strLength_append]; omega),
    strStartsWith_append_stable s t1 p h]

theorem install_line_prefix_pacman (target : String) :
    strStartsWith (install_cmd_line_of target "pacman") "sudo " = true := by
  rcases hs : SPECIAL_INSTALL_MAP target with _ | g
  · simp only [install_cmd_line_of, hs]
    rw [strStartsWith_append2_stable _ _ _ _ (by decide)]
    decide
  · have hcopy := hs
    unfold SPECIAL_INSTALL_MAP at hcopy
    split_ifs at hcopy with ht1 ht2
    · subst ht1; decide
    · subst ht2; decide

theorem install_line_prefix_yay (target : String) :
    strStartsWith (install_cmd_line_of target "yay") "sudo " = false := by
  rcases hs : SPECIAL_INSTALL_MAP target with _ | g
  · simp only [install_cmd_line_of, hs]
    rw [strStartsWith_append2_stable _ _ _ _ (by decide)]
    decide
  · have hcopy := hs
    unfold SPECIAL_INSTALL_MAP at hcopy
    split_ifs at hcopy with ht1 ht2
    · subst ht1; decide
    · subst ht2; decide

theorem install_line_prefix_paru (target : String) :
    strStartsWith (install_cmd_line_of target "paru") "sudo " = false := by
  rcases hs : SPECIAL_INSTALL_MAP target with _ | g
  · simp only [install_cmd_line_of, hs]
    rw [strStartsWith_append2_stable _ _ _ _ (by decide)]
    decide
  · have hcopy := hs
    unfold SPECIAL_INSTALL_MAP at hcopy
    split_ifs at hcopy with ht1 ht2
    · subst ht1; decide
    · subst ht2; decide

/-- C9: for every package manager of the supported list, every current
profile and every target profile, the removal and install package-manager
command lines of the generated script (both occurring in the script text)
carry the "sudo " prefix exactly when the package manager is the base one,
"pacman"; the AUR helpers "yay" and "paru" get no sudo prefix. -/
theorem c9_sudo_iff_pacman (current target pm : String) (hpm : pm ∈ PKG_MANAGER_LIST) :
    (strStartsWith (removal_cmd_of pm) "sudo " = true ↔ pm = "pacman")
    ∧ (strStartsWith (install_cmd_line_of target pm) "sudo " = true ↔ pm = "pacman")
    ∧ Substr (removal_cmd_of pm) (generate_script current target pm)
    ∧ Substr (install_cmd_line_of target pm) (generate_script current target pm) := by
  have hsplit : pm = "pacman" ∨ pm = "yay" ∨ pm = "paru" := by
    simpa [PKG_MANAGER_LIST] using hpm
  refine ⟨?_, ?_, substr_removal_script current target pm,
    substr_install_script current target pm⟩
  · rcases hsplit with rfl | rfl | rfl <;> decide
  · rcases hsplit with rfl | rfl | rfl
    · rw [install_line_prefix_pacman]
      decide
    · rw [install_line_prefix_yay]
      decide
    · rw [install_line_prefix_paru]
      decide

/-- C9 witness: the theorem instantiated at the AUR helper yay and at the
base manager via the list membership hypothesis. -/
theorem c9_witness :
    ("yay" : String) ∈ PKG_MANAGER_LIST
    ∧ ((strStartsWith (removal_cmd_of "yay") "sudo " = true ↔ ("yay" : String) = "pacman")
       ∧ (strStartsWith (install_cmd_line_of "GNOME-Desktop" "yay") "sudo " = true
            ↔ ("yay" : String) = "pacman")
       ∧ Substr (removal_cmd_of "yay") (generate_script "KDE-Desktop" "GNOME-Desktop" "yay")
       ∧ Substr (install_cmd_line_of "GNOME-Desktop" "yay")
           (generate_script "KDE-Desktop" "GNOME-Desktop" "yay")) :=
  ⟨by decide, c9_sudo_iff_pacman "KDE-Desktop" "GNOME-Desktop" "yay" (by decide)⟩

/-- C8: for every path string and every filesystem state, validation fails
with IsDirectory when the path is an existing directory; fails with
ParentMissing when (the path not being a directory) the parent component is
non-empty and does not exist; fails with EmptyFilename when (the earlier
checks passing) the final filename component is absent or empty; and
otherwise succeeds returning the path unchanged.  The embedding only reads
the two filesystem predicates, so validation writes nothing. -/
theorem c8_validate_cases (fs : FSState) (p : String) :
    (fs.isDir p = true →
      validate_and_finalize_path fs p = Except.error PathError.IsDirectory)
    ∧ (fs.isDir p = false → (parentOf p).getD "" ≠ "" →
        fs.pathExists ((parentOf p).getD "") = false →
        validate_and_finalize_path fs p = Except.error PathError.ParentMissing)
    ∧ (fs.isDir p = false →
        ((parentOf p).getD "" = "" ∨ fs.pathExists ((parentOf p).getD "") = true) →
        (fileNameOf p).getD "" = "" →
        validate_and_finalize_path fs p = Except.error PathError.EmptyFilename)
    ∧ (fs.isDir p = false →
        ((parentOf p).getD "" = "" ∨ fs.pathExists ((parentOf p).getD "") = true) →
        (fileNameOf p).getD "" ≠ "" →
        validate_and_finalize_path fs p = Except.ok p) := by
  refine ⟨?_, ?_, ?_, ?_⟩
  · intro h1
    simp [validate_and_finalize_path, h1]
  · intro h1 h2 h3
    simp [validate_and_finalize_path, h1, h2, h3]
  · intro h1 h2 h3
    rcases hf : fileNameOf p with _ | fn
    · rcases h2 with h2 | h2 <;> simp [validate_and_finalize_path, h1, h2, hf]
    · rw [hf, Option.getD_some] at h3
      rcases h2 with h2 | h2 <;>
        simp [validate_and_finalize_path, h1, h2, hf, h3] <;> rfl
  · intro h1 h2 h3
    rcases hf : fileNameOf p with _ | fn
    · rw [hf] at h3
      exact absurd rfl h3
    · rw [hf, Option.getD_some] at h3
      have hne : fn.isEmpty = false := by
        rcases hb : fn.isEmpty with _ | _
        · rfl
        · exact absurd ((String.isEmpty_iff fn).mp (by rw [hb])) h3
      rcases h2 with h2 | h2 <;>
        simp [validate_and_finalize_path, h1, h2, hf, hne]

/-- C8 witness: the theorem instantiated at a filesystem where only the
root directory exists and at a path whose parent directory is missing,
yielding the ParentMissing rejection. -/
theorem c8_witness :
    ((FSState.mk (fun _ => false) (fun s => s == "/")).isDir "/definitely/not/x.sh" = false
      ∧ (parentOf "/definitely/not/x.sh").getD "" ≠ ""
      ∧ (FSState.mk (fun _ => false) (fun s => s == "/")).pathExists
          ((parentOf "/definitely/not/x.sh").getD "") = false)
    ∧ validate_and_finalize_path (FSState.mk (fun _ => false) (fun s => s == "/"))
        "/definitely/not/x.sh" = Except.error PathError.ParentMissing :=
  ⟨⟨rfl, by decide, by decide⟩,
   (c8_validate_cases (FSState.mk (fun _ => false) (fun s => s == "/"))
      "/definitely/not/x.sh").2.1 rfl (by decide) (by decide)⟩

theorem getD_mem_of_lt (buf : List Nat) (i : Nat) (h : i < buf.length) :
    buf.getD i 0 ∈ buf := by
  rw [List.getD_eq_getElem buf 0 h]
  exact List.getElem_mem h

theorem ascii_isCharBoundary (buf : List Nat) (i : Nat)
    (hb : ∀ b ∈ buf, b < 0x80) (hi : i ≤ buf.length) :
    isCharBoundary buf i = true := by
  unfold isCharBoundary
  by_cases h0 : i = 0
  · rw [if_pos h0]
  · rw [if_neg h0, if_neg (by omega)]
    by_cases hl : i = buf.length
    · rw [if_pos hl]
    · rw [if_neg hl]
      have hb2 := hb _ (getD_mem_of_lt buf i (by omega))
      have hfalse : isContinuation (buf.getD i 0) = false := by
        unfold isContinuation
        rw [decide_eq_false (by omega : ¬(0x80 ≤ buf.getD i 0))]
        rfl
      rw [hfalse]
      rfl

theorem ascii_charLenAt (buf : List Nat) (i : Nat)
    (hb : ∀ b ∈ buf, b < 0x80) (hi : i < buf.length) :
    charLenAt buf i = 1 := by
  simp only [charLenAt]
  rw [if_pos (hb _ (getD_mem_of_lt buf i hi))]

/-- C10 (amended): starting from any editor state whose buffer is all
ASCII with the cursor inside it (as the initial state is), every path-entry
edit operation whose inserted character is ASCII succeeds and preserves the
invariant — the buffer stays all ASCII, the cursor stays between 0 and the
buffer length and hence on a character boundary — and backspace and
cursor-left at position 0, and delete and cursor-right at the buffer end,
are no-ops.  For a multi-byte insert the boundary invariant fails (see the
counterexample), which forces the ASCII restriction. -/
theorem c10_edit_preserves (op : EditOp) (s : EditState)
    (hb : ∀ b ∈ s.buf, b < 0x80)
    (hc : s.cursor ≤ s.buf.length)
    (hins : ∀ c, op = EditOp.insChar c → c < 0x80) :
    ∃ s2, applyEdit op s = some s2
      ∧ (∀ b ∈ s2.buf, b < 0x80)
      ∧ s2.cursor ≤ s2.buf.length
      ∧ isCharBoundary s2.buf s2.cursor = true
      ∧ (op = EditOp.backspace → s.cursor = 0 → s2 = s)
      ∧ (op = EditOp.left → s.cursor = 0 → s2 = s)
      ∧ (op = EditOp.del → s.cursor = s.buf.length → s2 = s)
      ∧ (op = EditOp.right → s.cursor = s.buf.length → s2 = s) := by
  cases op with
  | insChar c =>
    have hc80 : c < 0x80 := hins c rfl
    have hbyte : utf8Bytes c = [c] := by unfold utf8Bytes; rw [if_pos hc80]
    set nb := s.buf.take s.cursor ++ [c] ++ s.buf.drop s.cursor with hnb
    have hball : ∀ b ∈ nb, b < 0x80 := by
      intro b hbm
      rw [hnb] at hbm
      simp only [List.append_assoc, List.mem_append, List.mem_singleton] at hbm
      rcases hbm with hbm | hbm | hbm
      · exact hb b (List.take_subset _ _ hbm)
      · omega
      · exact hb b (List.drop_subset _ _ hbm)
    have hlen : nb.length = s.buf.length + 1 := by
      rw [hnb]
      simp only [List.length_append, List.length_take, List.length_drop,
        List.length_singleton]
      omega
    refine ⟨⟨nb, s.cursor + 1⟩, ?_, hball, ?_, ?_, ?_, ?_, ?_, ?_⟩
    · show (if isCharBoundary s.buf s.cursor = true then
          some (EditState.mk (s.buf.take s.cursor ++ utf8Bytes c ++ s.buf.drop s.cursor)
            (s.cursor + 1))
        else none) = some (EditState.mk nb (s.cursor + 1))
      rw [if_pos (ascii_isCharBoundary s.buf s.cursor hb hc), hbyte, hnb]
    · show s.cursor + 1 ≤ nb.length
      omega
    · exact ascii_isCharBoundary nb (s.cursor + 1) hball (by omega)
    · intro h; cases h
    · intro h; cases h
    · intro h; cases h
    · intro h; cases h
  | backspace =>
    by_cases hz : s.cursor = 0
    · refine ⟨s, ?_, hb, hc, ascii_isCharBoundary s.buf s.cursor hb hc,
        ?_, ?_, ?_, ?_⟩
      · show (if s.cursor > 0 then
            if (isCharBoundary s.buf (s.cursor - 1)
                && decide (s.cursor - 1 < s.buf.length)) = true then
              some (EditState.mk (s.buf.take (s.cursor - 1)
                ++ s.buf.drop (s.cursor - 1 + charLenAt s.buf (s.cursor - 1)))
                (s.cursor - 1))
            else none
          else some s) = some s
        rw [if_neg (by omega)]
      · intro _ _; rfl
      · intro h; cases h
      · intro h; cases h
      · intro h; cases h
    · have hpos : s.cursor > 0 := by omega
      have hi : s.cursor - 1 < s.buf.length := by omega
      have hbd := ascii_isCharBoundary s.buf (s.cursor - 1) hb (by omega)
      have hcl := ascii_charLenAt s.buf (s.cursor - 1) hb hi
      set nb := s.buf.take (s.cursor - 1) ++ s.buf.drop (s.cursor - 1 + 1) with hnb
      have hball : ∀ b ∈ nb, b < 0x80 := by
        intro b hbm
        rw [hnb] at hbm
        rcases List.mem_append.mp hbm with hbm | hbm
        · exact hb b (List.take_subset _ _ hbm)
        · exact hb b (List.drop_subset _ _ hbm)
      have hlen : nb.length = s.buf.length - 1 := by
        rw [hnb]
        simp only [List.length_append, List.length_take, List.length_drop]
        omega
      have hcond : (isCharBoundary s.buf (s.cursor - 1)
          && decide (s.cursor - 1 < s.buf.length)) = true := by
        rw [hbd]
        simp [hi]
      refine ⟨⟨nb, s.cursor - 1⟩, ?_, hball, ?_, ?_, ?_, ?_, ?_, ?_⟩
      · show (if s.cursor > 0 then
            if (isCharBoundary s.buf (s.cursor - 1)
                && decide (s.cursor - 1 < s.buf.length)) = true then
              some (EditState.mk (s.buf.take (s.cursor - 1)
                ++ s.buf.drop (s.cursor - 1 + charLenAt s.buf (s.cursor - 1)))
                (s.cursor - 1))
            else none
          else some s) = some (EditState.mk nb (s.cursor - 1))
        rw [if_pos hpos, if_pos hcond, hcl, hnb]
      · show s.cursor - 1 ≤ nb.length
        omega
      · exact ascii_isCharBoundary nb (s.cursor - 1) hball (by omega)
      · intro _ h0; exact absurd h0 hz
      · intro h; cases h
      · intro h; cases h
      · intro h; cases h
  | del =>
    by_cases hz : s.cursor = s.buf.length
    · refine ⟨s, ?_, hb, hc, ascii_isCharBoundary s.buf s.cursor hb hc,
        ?_, ?_, ?_, ?_⟩
      · show (if s.cursor < s.buf.length then
            if isCharBoundary s.buf s.cursor = true then
              some (EditState.mk (s.buf.take s.cursor
                ++ s.buf.drop (s.cursor + charLenAt s.buf s.cursor)) s.cursor)
            else none
          else some s) = some s
        rw [if_neg (by omega)]
      · intro h; cases h
      · intro h; cases h
      · intro _ _; rfl
      · intro h; cases h
    · have hlt : s.cursor < s.buf.length := by omega
      have hbd := ascii_isCharBoundary s.buf s.cursor hb hc
      have hcl := ascii_charLenAt s.buf s.cursor hb hlt
      set nb := s.buf.take s.cursor ++ s.buf.drop (s.cursor + 1) with hnb
      have hball : ∀ b ∈ nb, b < 0x80 := by
        intro b hbm
        rw [hnb] at hbm
        rcases List.mem_append.mp hbm with hbm | hbm
        · exact hb b (List.take_subset _ _ hbm)
        · exact hb b (List.drop_subset _ _ hbm)
      have hlen : nb.length = s.buf.length - 1 := by
        rw [hnb]
        simp only [List.length_append, List.length_take, List.length_drop]
        omega
      refine ⟨⟨nb, s.cursor⟩, ?_, hball, ?_, ?_, ?_, ?_, ?_, ?_⟩
      · show (if s.cursor < s.buf.length then
            if isCharBoundary s.buf s.cursor = true then
              some (EditState.mk (s.buf.take s.cursor
                ++ s.buf.drop (s.cursor + charLenAt s.buf s.cursor)) s.cursor)
            else none
          else some s) = some (EditState.mk nb s.cursor)
        rw [if_pos hlt, if_pos hbd, hcl, hnb]
      · show s.cursor ≤ nb.length
        omega
      · exact ascii_isCharBoundary nb s.cursor hball (by omega)
      · intro h; cases h
      · intro h; cases h
      · intro _ h0; exact absurd h0 hz
      · intro h; cases h
  | left =>
    by_cases hz : s.cursor = 0
    · refine ⟨s, ?_, hb, hc, ascii_isCharBoundary s.buf s.cursor hb hc,
        ?_, ?_, ?_, ?_⟩
      · show (if s.cursor > 0 then some (EditState.mk s.buf (s.cursor - 1))
          else some s) = some s
        rw [if_neg (by omega)]
      · intro h; cases h
      · intro _ _; rfl
      · intro h; cases h
      · intro h; cases h
    · refine ⟨⟨s.buf, s.cursor - 1⟩, ?_, hb, ?_, ?_, ?_, ?_, ?_, ?_⟩
      · show (if s.cursor > 0 then some (EditState.mk s.buf (s.cursor - 1))
          else some s) = some (EditState.mk s.buf (s.cursor - 1))
        rw [if_pos (by omega)]
      · show s.cursor - 1 ≤ s.buf.length
        omega
      · exact ascii_isCharBoundary s.buf (s.cursor - 1) hb (by omega)
      · intro h; cases h
      · intro _ h0; exact absurd h0 hz
      · intro h; cases h
      · intro h; cases h
  | right =>
    by_cases hz : s.cursor = s.buf.length
    · refine ⟨s, ?_, hb, hc, ascii_isCharBoundary s.buf s.cursor hb hc,
        ?_, ?_, ?_, ?_⟩
      · show (if s.cursor < s.buf.length then some (EditState.mk s.buf (s.cursor + 1))
          else some s) = some s
        rw [if_neg (by omega)]
      · intro h; cases h
      · intro h; cases h
      · intro h; cases h
      · intro _ _; rfl
    · refine ⟨⟨s.buf, s.cursor + 1⟩, ?_, hb, ?_, ?_, ?_, ?_, ?_, ?_⟩
      · show (if s.cursor < s.buf.length then some (EditState.mk s.buf (s.cursor + 1))
          else some s) = some (EditState.mk s.buf (s.cursor + 1))
        rw [if_pos (by omega)]
      · show s.cursor + 1 ≤ s.buf.length
        omega
      · exact ascii_isCharBoundary s.buf (s.cursor + 1) hb (by omega)
      · intro h; cases h
      · intro h; cases h
      · intro h; cases h
      · intro _ h0; exact absurd h0 hz

/-- C10 witness: the amended theorem instantiated at an ASCII character
insert on the initial path-entry editor state (cursor at the byte length of
the default buffer). -/
theorem c10_witness :
    (∀ b ∈ (initial_edit_state "KDE" ["KDE-Desktop", "GNOME-Desktop"]).buf, b < 0x80)
    ∧ (initial_edit_state "KDE" ["KDE-Desktop", "GNOME-Desktop"]).cursor
        ≤ (initial_edit_state "KDE" ["KDE-Desktop", "GNOME-Desktop"]).buf.length
    ∧ (∀ c, EditOp.insChar 97 = EditOp.insChar c → c < 0x80)
    ∧ (∃ s2, applyEdit (EditOp.insChar 97)
          (initial_edit_state "KDE" ["KDE-Desktop", "GNOME-Desktop"]) = some s2
        ∧ (∀ b ∈ s2.buf, b < 0x80)
        ∧ s2.cursor ≤ s2.buf.length
        ∧ isCharBoundary s2.buf s2.cursor = true
        ∧ (EditOp.insChar 97 = EditOp.backspace →
            (initial_edit_state "KDE" ["KDE-Desktop", "GNOME-Desktop"]).cursor = 0 →
            s2 = initial_edit_state "KDE" ["KDE-Desktop", "GNOME-Desktop"])
        ∧ (EditOp.insChar 97 = EditOp.left →
            (initial_edit_state "KDE" ["KDE-Desktop", "GNOME-Desktop"]).cursor = 0 →
            s2 = initial_edit_state "KDE" ["KDE-Desktop", "GNOME-Desktop"])
        ∧ (EditOp.insChar 97 = EditOp.del →
            (initial_edit_state "KDE" ["KDE-Desktop", "GNOME-Desktop"]).cursor
              = (initial_edit_state "KDE" ["KDE-Desktop", "GNOME-Desktop"]).buf.length →
            s2 = initial_edit_state "KDE" ["KDE-Desktop", "GNOME-Desktop"])
        ∧ (EditOp.insChar 97 = EditOp.right →
            (initial_edit_state "KDE" ["KDE-Desktop", "GNOME-Desktop"]).cursor
              = (initial_edit_state "KDE" ["KDE-Desktop", "GNOME-Desktop"]).buf.length →
            s2 = initial_edit_state "KDE" ["KDE-Desktop", "GNOME-Desktop"])) :=
  ⟨by decide, by decide, fun c h => by injection h with h2; omega,
   c10_edit_preserves (EditOp.insChar 97)
     (initial_edit_state "KDE" ["KDE-Desktop", "GNOME-Desktop"])
     (by decide) (by decide) (fun c h => by injection h with h2; omega)⟩

/-- C10 counterexample: inserting the two-byte character with code point
233 at the end of the one-byte buffer of "a" succeeds (the insertion point
is a boundary) and moves the cursor to byte index 2, which lies strictly
inside the inserted character and is not a character boundary — although
the pre-state satisfied the claimed invariant — so the edit operations do
not preserve the boundary invariant for arbitrary inserted characters. -/
theorem c10_counterexample :
    (1 ≤ ([97] : List Nat).length ∧ isCharBoundary [97] 1 = true)
    ∧ applyEdit (EditOp.insChar 233) (EditState.mk [97] 1)
        = some (EditState.mk [97, 195, 169] 2)
    ∧ isCharBoundary [97, 195, 169] 2 = false :=
  ⟨⟨by decide, by decide⟩, by decide, by decide⟩

end DeSwitcher
